import Mathlib

/-!
Shallow embedding of the final-generation Skua egg hatching prediction engine
(`src/lib/calculations/skua-formulas.ts`, per-species quadratic inversion):
egg volume and density, the DBH quadratic solver `calculateTBH`, the
confidence scorer, the facade `calculateSkuaTBH`, the batch variant and the
input validator, together with theorems settling the spec claims.

Numbers are modelled as real numbers (the source computes with JS floats and
`Math.sqrt`); errors are modelled as an `Except` over a kind taxonomy.
-/

namespace Ovotime

/-- The two supported species tags. -/
inductive Species where
  | arctic
  | great
deriving DecidableEq

/-- Per-species quadratic coefficients of `density = a*DBH^2 + b*DBH + c`. -/
structure SpeciesFormula where
  a : ℝ
  b : ℝ
  c : ℝ

/-- Static table `SPECIES_FORMULAS` from the source. -/
noncomputable def SPECIES_FORMULAS : Species → SpeciesFormula
  | .arctic => ⟨-0.00007345, 0.008618, 0.8719⟩
  | .great => ⟨-0.0001, 0.008442, 0.8843⟩

/-- A closed numeric interval given by its two endpoints. -/
structure RangePair where
  lo : ℝ
  hi : ℝ

/-- Per-species confidence envelopes. -/
structure SpeciesRanges where
  density : RangePair
  dbh : RangePair

/-- Static table `SPECIES_RANGES` from the source. -/
noncomputable def SPECIES_RANGES : Species → SpeciesRanges
  | .arctic => ⟨⟨0.80, 1.05⟩, ⟨0, 35⟩⟩
  | .great => ⟨⟨0.85, 1.10⟩, ⟨0, 35⟩⟩

/-- Error kinds of the engine (the source throws `Error`s whose messages
identify these situations; the spec names them as a taxonomy). -/
inductive ErrKind where
  | invalidMeasurement
  | implausibleMeasurement
  | unsolvableFormula
  | noValidRoot
  | implausibleResult
deriving DecidableEq

/-- `calculateEggVolume`: VE = kv * l * b^2 in mm^3, converted to cm^3. -/
noncomputable def calculateEggVolume (length breadth kv : ℝ) : Except ErrKind ℝ :=
  if length ≤ 0 ∨ breadth ≤ 0 ∨ kv ≤ 0 then .error .invalidMeasurement
  else .ok (kv * length * breadth ^ 2 / 1000)

/-- `calculateEggDensity`: DE = mass / VE. -/
noncomputable def calculateEggDensity (mass eggVolume : ℝ) : Except ErrKind ℝ :=
  if mass ≤ 0 ∨ eggVolume ≤ 0 then .error .invalidMeasurement
  else .ok (mass / eggVolume)

/-- Discriminant `b^2 - 4*a*(c - DE)` of the solver's quadratic. -/
noncomputable def discriminantOf (s : Species) (eggDensity : ℝ) : ℝ :=
  (SPECIES_FORMULAS s).b ^ 2 - 4 * (SPECIES_FORMULAS s).a * ((SPECIES_FORMULAS s).c - eggDensity)

/-- The solver's `root1 = (-b + sqrt(disc)) / (2a)`. -/
noncomputable def root1Of (s : Species) (eggDensity : ℝ) : ℝ :=
  (-(SPECIES_FORMULAS s).b + Real.sqrt (discriminantOf s eggDensity)) / (2 * (SPECIES_FORMULAS s).a)

/-- The solver's `root2 = (-b - sqrt(disc)) / (2a)`. -/
noncomputable def root2Of (s : Species) (eggDensity : ℝ) : ℝ :=
  (-(SPECIES_FORMULAS s).b - Real.sqrt (discriminantOf s eggDensity)) / (2 * (SPECIES_FORMULAS s).a)

/-- `[root1, root2].filter (0 <= r && r <= 35)` from the source. -/
noncomputable def validRoots (r1 r2 : ℝ) : List ℝ :=
  (if 0 ≤ r1 ∧ r1 ≤ 35 then [r1] else []) ++ (if 0 ≤ r2 ∧ r2 ≤ 35 then [r2] else [])

/-- `calculateTBH(eggDensity, speciesType)`: the per-species quadratic DBH
solver, with its checks in source order: density ≤ 0, density > 2.0,
negative discriminant, empty valid-root set, final sanity bounds. -/
noncomputable def calculateTBH (eggDensity : ℝ) (speciesType : Species) : Except ErrKind ℝ :=
  if eggDensity ≤ 0 then .error .invalidMeasurement
  else if 2 < eggDensity then .error .implausibleMeasurement
  else if discriminantOf speciesType eggDensity < 0 then .error .unsolvableFormula
  else
    match validRoots (root1Of speciesType eggDensity) (root2Of speciesType eggDensity) with
    | [] => .error .noValidRoot
    | r :: rs =>
      let dbh := rs.foldl min r
      if dbh < 0 then .error .implausibleResult
      else if 100 < dbh then .error .implausibleResult
      else .ok dbh

/-- `calculateConfidence(eggDensity, dbh, speciesType)` from the source. -/
noncomputable def calculateConfidence (eggDensity dbh : ℝ) (speciesType : Species) : ℝ :=
  let ranges := SPECIES_RANGES speciesType
  let densityFactor :=
    if eggDensity < ranges.density.lo ∨ ranges.density.hi < eggDensity then (0.6 : ℝ)
    else
      let densityRange := ranges.density.hi - ranges.density.lo
      let distanceFromCenter := |eggDensity - (ranges.density.lo + densityRange / 2)|
      let maxDistance := densityRange / 2
      0.9 + 0.1 * (1 - distanceFromCenter / maxDistance)
  let dbhFactor :=
    if dbh < ranges.dbh.lo ∨ ranges.dbh.hi < dbh then (0.7 : ℝ)
    else if 30 < dbh then (0.8 : ℝ)
    else 1
  max 0.1 (min 1.0 (1.0 * densityFactor * dbhFactor))

/-- `Math.round(x * p) / p` (JS `Math.round` is `floor(x + 1/2)`). -/
noncomputable def roundTo (p x : ℝ) : ℝ := (⌊x * p + 1 / 2⌋ : ℤ) / p

/-- Caller-supplied measurement record. -/
structure SkuaCalculationInput where
  length : ℝ
  breadth : ℝ
  mass : ℝ
  kv : ℝ
  speciesType : Species

/-- Engine output record (formula metadata fields carry the coefficients). -/
structure SkuaCalculationResult where
  tbh : ℝ
  eggDensity : ℝ
  eggVolume : ℝ
  confidence : ℝ
  speciesType : Species
  coeffA : ℝ
  coeffB : ℝ
  coeffC : ℝ

/-- `calculateSkuaTBH(input)`: the facade orchestrating volume, density,
solver and confidence, rounding the reported fields as the source does. -/
noncomputable def calculateSkuaTBH (input : SkuaCalculationInput) :
    Except ErrKind SkuaCalculationResult :=
  if input.length ≤ 0 ∨ input.breadth ≤ 0 ∨ input.mass ≤ 0 ∨ input.kv ≤ 0 then
    .error .invalidMeasurement
  else
    match calculateEggVolume input.length input.breadth input.kv with
    | .error e => .error e
    | .ok eggVolume =>
      match calculateEggDensity input.mass eggVolume with
      | .error e => .error e
      | .ok eggDensity =>
        match calculateTBH eggDensity input.speciesType with
        | .error e => .error e
        | .ok dbh =>
          let confidence := calculateConfidence eggDensity dbh input.speciesType
          let f := SPECIES_FORMULAS input.speciesType
          .ok { tbh := roundTo 100 dbh
                eggDensity := roundTo 10000 eggDensity
                eggVolume := roundTo 100 eggVolume
                confidence := roundTo 1000 confidence
                speciesType := input.speciesType
                coeffA := f.a, coeffB := f.b, coeffC := f.c }

/-- Worker of `calculateBatchTBH`: applies the facade in order, failing at the
first failing element with its zero-based index. -/
noncomputable def calculateBatchTBHAux :
    Nat → List SkuaCalculationInput → Except (Nat × ErrKind) (List SkuaCalculationResult)
  | _, [] => .ok []
  | i, x :: xs =>
    match calculateSkuaTBH x with
    | .error e => .error (i, e)
    | .ok r =>
      match calculateBatchTBHAux (i + 1) xs with
      | .error e => .error e
      | .ok rs => .ok (r :: rs)

/-- `calculateBatchTBH(inputs)`. -/
noncomputable def calculateBatchTBH (inputs : List SkuaCalculationInput) :
    Except (Nat × ErrKind) (List SkuaCalculationResult) :=
  calculateBatchTBHAux 0 inputs

/-- Diagnostics pushed by `validateCalculationInput`, in source order. -/
inductive ValidationError where
  | lengthNotPositive
  | breadthNotPositive
  | massNotPositive
  | kvNotPositive
  | lengthOutOfRange
  | breadthOutOfRange
  | massOutOfRange
  | kvOutOfRange
  | densityOutOfRange
  | negativeDiscriminant
deriving DecidableEq

/-- The validator's structural and absolute-band checks (positivity plus the
60-85mm / 40-60mm / 70-120g / 0.1-1.0 bands; the species tag is well formed
by construction in this typed model). -/
noncomputable def structuralErrors (input : SkuaCalculationInput) : List ValidationError :=
  (if input.length ≤ 0 then [.lengthNotPositive] else []) ++
  (if input.breadth ≤ 0 then [.breadthNotPositive] else []) ++
  (if input.mass ≤ 0 then [.massNotPositive] else []) ++
  (if input.kv ≤ 0 then [.kvNotPositive] else []) ++
  (if input.length < 60 ∨ 85 < input.length then [.lengthOutOfRange] else []) ++
  (if input.breadth < 40 ∨ 60 < input.breadth then [.breadthOutOfRange] else []) ++
  (if input.mass < 70 ∨ 120 < input.mass then [.massOutOfRange] else []) ++
  (if input.kv < 0.1 ∨ 1.0 < input.kv then [.kvOutOfRange] else [])

/-- The density the validator pre-simulates: `mass / (kv*l*b^2/1000)`. -/
noncomputable def simDensity (input : SkuaCalculationInput) : ℝ :=
  input.mass / (input.kv * input.length * input.breadth ^ 2 / 1000)

/-- The full error list of `validateCalculationInput`: when the structural
checks all pass, the validator pre-simulates the pipeline and reports a
density outside 0.5-1.5 or a negative discriminant. -/
noncomputable def validationErrors (input : SkuaCalculationInput) : List ValidationError :=
  if structuralErrors input = [] then
    (if simDensity input < 0.5 ∨ 1.5 < simDensity input then [.densityOutOfRange] else []) ++
    (if discriminantOf input.speciesType (simDensity input) < 0
      then [.negativeDiscriminant] else [])
  else structuralErrors input

/-- The validator's `{ isValid, errors }` record. -/
structure ValidationResult where
  isValid : Prop
  errors : List ValidationError

/-- `validateCalculationInput(input)` from the source. -/
noncomputable def validateCalculationInput (input : SkuaCalculationInput) : ValidationResult :=
  ⟨validationErrors input = [], validationErrors input⟩

/-- Forward per-species regression `density = a*dbh^2 + b*dbh + c` (the
published formula the solver inverts, stated in the source's table comment). -/
noncomputable def densityOfDBH (s : Species) (dbh : ℝ) : ℝ :=
  (SPECIES_FORMULAS s).a * dbh ^ 2 + (SPECIES_FORMULAS s).b * dbh + (SPECIES_FORMULAS s).c

/-- Confidence algorithm written from the spec's own wording (start at 1.0,
multiply by 0.6 or the closeness scaling, then by 0.7 or 0.8, clamp),
for comparison with `calculateConfidence`. -/
noncomputable def confidenceSpec (eggDensity dbh : ℝ) (speciesType : Species) : ℝ :=
  let dr := (SPECIES_RANGES speciesType).density
  let tr := (SPECIES_RANGES speciesType).dbh
  let afterDensity : ℝ :=
    if eggDensity < dr.lo ∨ dr.hi < eggDensity then 1.0 * 0.6
    else 1.0 * (0.9 + 0.1 * (1 - |eggDensity - (dr.lo + dr.hi) / 2| / ((dr.hi - dr.lo) / 2)))
  let afterDBH : ℝ :=
    if dbh < tr.lo ∨ tr.hi < dbh then afterDensity * 0.7
    else if 30 < dbh then afterDensity * 0.8
    else afterDensity
  max 0.1 (min 1.0 afterDBH)

/-! ### Helper lemmas about list minima and the root filter -/

lemma foldl_min_le_init (l : List ℝ) (r : ℝ) : l.foldl min r ≤ r := by
  induction l generalizing r with
  | nil => simp
  | cons x xs ih => exact le_trans (ih (min r x)) (min_le_left r x)

lemma le_foldl_min (l : List ℝ) (b r : ℝ) (hr : b ≤ r) (h : ∀ x ∈ l, b ≤ x) :
    b ≤ l.foldl min r := by
  induction l generalizing r with
  | nil => simpa
  | cons x xs ih =>
    exact ih (min r x) (le_min hr (h x (List.mem_cons_self x xs)))
      (fun y hy => h y (List.mem_cons_of_mem x hy))

lemma foldl_min_mem (l : List ℝ) (r : ℝ) : l.foldl min r = r ∨ l.foldl min r ∈ l := by
  induction l generalizing r with
  | nil => simp
  | cons x xs ih =>
    rcases ih (min r x) with h | h
    · rcases min_choice r x with hm | hm
      · left
        rw [List.foldl_cons, h, hm]
      · right
        rw [List.foldl_cons, h, hm]
        exact List.mem_cons_self x xs
    · right
      exact List.mem_cons_of_mem x h

lemma foldl_min_le_mem (l : List ℝ) (r x : ℝ) (hx : x ∈ l) : l.foldl min r ≤ x := by
  induction l generalizing r with
  | nil => cases hx
  | cons y ys ih =>
    rcases List.mem_cons.mp hx with h | h
    · subst h
      exact le_trans (foldl_min_le_init ys (min r x)) (min_le_right r x)
    · exact ih (min r y) h

lemma mem_validRoots (r r1 r2 : ℝ) :
    r ∈ validRoots r1 r2 ↔ ((r = r1 ∨ r = r2) ∧ 0 ≤ r ∧ r ≤ 35) := by
  unfold validRoots
  constructor
  · intro h
    rcases List.mem_append.mp h with h | h
    · split_ifs at h with h1
      · rcases List.mem_singleton.mp h with rfl
        exact ⟨Or.inl rfl, h1⟩
      · cases h
    · split_ifs at h with h2
      · rcases List.mem_singleton.mp h with rfl
        exact ⟨Or.inr rfl, h2⟩
      · cases h
  · rintro ⟨rfl | rfl, hb⟩
    · exact List.mem_append.mpr (Or.inl (by rw [if_pos hb]; exact List.mem_singleton.mpr rfl))
    · exact List.mem_append.mpr (Or.inr (by rw [if_pos hb]; exact List.mem_singleton.mpr rfl))

/-! ### Evaluation lemmas for the solver -/

lemma calculateTBH_ok_root1 (s : Species) (d : ℝ) (hd0 : 0 < d) (hd2 : d ≤ 2)
    (hdisc : 0 ≤ discriminantOf s d)
    (hr1 : 0 ≤ root1Of s d ∧ root1Of s d ≤ 35)
    (hr2 : ¬ (0 ≤ root2Of s d ∧ root2Of s d ≤ 35)) :
    calculateTBH d s = .ok (root1Of s d) := by
  have hroots : validRoots (root1Of s d) (root2Of s d) = [root1Of s d] := by
    unfold validRoots
    rw [if_pos hr1, if_neg hr2]
    simp
  unfold calculateTBH
  rw [if_neg (not_le.mpr hd0), if_neg (not_lt.mpr hd2), if_neg (not_lt.mpr hdisc), hroots]
  simp only [List.foldl_nil]
  rw [if_neg (not_lt.mpr hr1.1), if_neg (not_lt.mpr (le_trans hr1.2 (by norm_num)))]

lemma roundtrip_core (s : Species) (t : ℝ) (ht0 : 0 ≤ t) (ht35 : t ≤ 35)
    (ha : (SPECIES_FORMULAS s).a < 0)
    (hb70 : 0 < (SPECIES_FORMULAS s).b + 70 * (SPECIES_FORMULAS s).a)
    (hc : 0 < (SPECIES_FORMULAS s).c)
    (hf35 : (SPECIES_FORMULAS s).a * 35 ^ 2 + (SPECIES_FORMULAS s).b * 35 +
      (SPECIES_FORMULAS s).c ≤ 2) :
    calculateTBH (densityOfDBH s t) s = .ok t := by
  have h35a : (SPECIES_FORMULAS s).a * 35 ≤ (SPECIES_FORMULAS s).a * t :=
    mul_le_mul_of_nonpos_left ht35 ha.le
  have hatb : 0 ≤ (SPECIES_FORMULAS s).a * t + (SPECIES_FORMULAS s).b := by linarith
  have hd0 : 0 < densityOfDBH s t := by
    unfold densityOfDBH
    nlinarith [mul_nonneg ht0 hatb]
  have hiv : 0 ≤ (SPECIES_FORMULAS s).a * (35 + t) + (SPECIES_FORMULAS s).b := by
    nlinarith [mul_le_mul_of_nonpos_left (show 35 + t ≤ 70 by linarith) ha.le]
  have hd2 : densityOfDBH s t ≤ 2 := by
    unfold densityOfDBH
    nlinarith [mul_nonneg (sub_nonneg.mpr ht35) hiv]
  have hdisc_eq : discriminantOf s (densityOfDBH s t) =
      ((SPECIES_FORMULAS s).b + 2 * (SPECIES_FORMULAS s).a * t) ^ 2 := by
    unfold discriminantOf densityOfDBH
    ring
  have hba : 0 ≤ (SPECIES_FORMULAS s).b + 2 * (SPECIES_FORMULAS s).a * t := by linarith
  have hsqrt : Real.sqrt (discriminantOf s (densityOfDBH s t)) =
      (SPECIES_FORMULAS s).b + 2 * (SPECIES_FORMULAS s).a * t := by
    rw [hdisc_eq, Real.sqrt_sq hba]
  have h2a : 2 * (SPECIES_FORMULAS s).a ≠ 0 := by
    intro h
    nlinarith
  have hr1 : root1Of s (densityOfDBH s t) = t := by
    unfold root1Of
    rw [hsqrt]
    field_simp
    try ring
  have hr2 : 35 < root2Of s (densityOfDBH s t) := by
    unfold root2Of
    rw [hsqrt, lt_div_iff_of_neg (by linarith : 2 * (SPECIES_FORMULAS s).a < 0)]
    linarith
  have h := calculateTBH_ok_root1 s (densityOfDBH s t) hd0 hd2
    (by rw [hdisc_eq]; positivity)
    (by rw [hr1]; exact ⟨ht0, ht35⟩)
    (by rintro ⟨-, hle⟩; exact absurd hle (not_le.mpr hr2))
  rw [hr1] at h
  exact h

/-! ### Claims -/

/-- C1: round-trip of the final-generation solver — for every species and
every dbh in [0, 35], computing density = a*dbh^2 + b*dbh + c from that
species' coefficients and then calling calculateTBH(density, species)
succeeds and returns a value within 1e-3 of the original dbh. -/
theorem calculateTBH_roundtrip (s : Species) (t : ℝ) (ht0 : 0 ≤ t) (ht35 : t ≤ 35) :
    ∃ v, calculateTBH (densityOfDBH s t) s = .ok v ∧ |v - t| ≤ 1 / 1000 := by
  refine ⟨t, ?_, by simp⟩
  apply roundtrip_core s t ht0 ht35 <;> cases s <;> norm_num [SPECIES_FORMULAS]

/-- Witness for C1 at species arctic, dbh = 3. -/
theorem calculateTBH_roundtrip_witness :
    ∃ v, calculateTBH (densityOfDBH .arctic 3) .arctic = .ok v ∧ |v - 3| ≤ 1 / 1000 :=
  calculateTBH_roundtrip .arctic 3 (by norm_num) (by norm_num)

/-- C3: the solver performs its checks in the fixed source order — nonpositive
density, density above 2.0, negative discriminant, empty valid-root set — each
error kind firing exactly when all earlier checks pass; in particular density
-1 fails with InvalidMeasurement (and no other kind) for every species. -/
theorem calculateTBH_error_order (s : Species) :
    (∀ d : ℝ, d ≤ 0 → calculateTBH d s = .error .invalidMeasurement) ∧
    (∀ d : ℝ, 0 < d → 2 < d → calculateTBH d s = .error .implausibleMeasurement) ∧
    (∀ d : ℝ, 0 < d → d ≤ 2 → discriminantOf s d < 0 →
      calculateTBH d s = .error .unsolvableFormula) ∧
    (∀ d : ℝ, 0 < d → d ≤ 2 → 0 ≤ discriminantOf s d →
      validRoots (root1Of s d) (root2Of s d) = [] →
      calculateTBH d s = .error .noValidRoot) ∧
    calculateTBH (-1) s = .error .invalidMeasurement := by
  refine ⟨fun d hd => ?_, fun d h0 h2 => ?_, fun d h0 h2 hdisc => ?_,
    fun d h0 h2 hdisc hl => ?_, ?_⟩
  · unfold calculateTBH
    rw [if_pos hd]
  · unfold calculateTBH
    rw [if_neg (not_le.mpr h0), if_pos h2]
  · unfold calculateTBH
    rw [if_neg (not_le.mpr h0), if_neg (not_lt.mpr h2), if_pos hdisc]
  · unfold calculateTBH
    rw [if_neg (not_le.mpr h0), if_neg (not_lt.mpr h2), if_neg (not_lt.mpr hdisc), hl]
  · unfold calculateTBH
    rw [if_pos (by norm_num : (-1 : ℝ) ≤ 0)]

/-- Witness for C3 at species arctic, density -1. -/
theorem calculateTBH_error_order_witness :
    calculateTBH (-1) .arctic = .error .invalidMeasurement :=
  (calculateTBH_error_order .arctic).1 (-1) (by norm_num)

lemma foldl_min_mem_cons (r : ℝ) (rs : List ℝ) : rs.foldl min r ∈ r :: rs := by
  rcases foldl_min_mem rs r with h | h
  · rw [h]
    exact List.mem_cons_self r rs
  · exact List.mem_cons_of_mem r h

lemma validRoots_cons_bounds (r1 r2 r : ℝ) (rs : List ℝ)
    (hl : validRoots r1 r2 = r :: rs) :
    0 ≤ rs.foldl min r ∧ rs.foldl min r ≤ 35 := by
  have hmem : rs.foldl min r ∈ validRoots r1 r2 := by
    rw [hl]
    exact foldl_min_mem_cons r rs
  exact ((mem_validRoots _ _ _).mp hmem).2

lemma calculateTBH_outcomes (s : Species) (d : ℝ) (hd0 : 0 < d) (hd2 : d ≤ 2)
    (hdisc : 0 ≤ discriminantOf s d) :
    (∃ v, calculateTBH d s = .ok v ∧ 0 ≤ v ∧ v ≤ 35) ∨
    calculateTBH d s = .error .noValidRoot := by
  unfold calculateTBH
  rw [if_neg (not_le.mpr hd0), if_neg (not_lt.mpr hd2), if_neg (not_lt.mpr hdisc)]
  rcases hl : validRoots (root1Of s d) (root2Of s d) with _ | ⟨r, rs⟩
  · right
    rfl
  · left
    obtain ⟨hm0, hm35⟩ := validRoots_cons_bounds _ _ r rs hl
    refine ⟨rs.foldl min r, ?_, hm0, hm35⟩
    simp only []
    rw [if_neg (not_lt.mpr hm0), if_neg (not_lt.mpr (le_trans hm35 (by norm_num)))]

/-- C4: for every density and species with a nonnegative discriminant, the
solver keeps exactly the roots lying in [0, 35] and, when the surviving set is
nonempty, returns its numerical minimum (the smaller surviving root). -/
theorem calculateTBH_smaller_root (s : Species) (d : ℝ) (hd0 : 0 < d) (hd2 : d ≤ 2)
    (hdisc : 0 ≤ discriminantOf s d)
    (hne : validRoots (root1Of s d) (root2Of s d) ≠ []) :
    (∀ r, r ∈ validRoots (root1Of s d) (root2Of s d) ↔
      ((r = root1Of s d ∨ r = root2Of s d) ∧ 0 ≤ r ∧ r ≤ 35)) ∧
    ∃ m, calculateTBH d s = .ok m ∧ m ∈ validRoots (root1Of s d) (root2Of s d) ∧
      ∀ r ∈ validRoots (root1Of s d) (root2Of s d), m ≤ r := by
  refine ⟨fun r => mem_validRoots r _ _, ?_⟩
  rcases hl : validRoots (root1Of s d) (root2Of s d) with _ | ⟨r, rs⟩
  · exact absurd hl hne
  obtain ⟨hm0, hm35⟩ := validRoots_cons_bounds _ _ r rs hl
  refine ⟨rs.foldl min r, ?_, ?_, ?_⟩
  · unfold calculateTBH
    rw [if_neg (not_le.mpr hd0), if_neg (not_lt.mpr hd2), if_neg (not_lt.mpr hdisc), hl]
    simp only []
    rw [if_neg (not_lt.mpr hm0), if_neg (not_lt.mpr (le_trans hm35 (by norm_num)))]
  · exact foldl_min_mem_cons r rs
  · intro r' hr'
    rcases List.mem_cons.mp hr' with h | h
    · rw [h]
      exact foldl_min_le_init rs r
    · exact foldl_min_le_mem rs r r' h

lemma discriminant_arctic_peak : discriminantOf .arctic 0.8719 = 0.008618 ^ 2 := by
  unfold discriminantOf
  norm_num [SPECIES_FORMULAS]

lemma root1_arctic_peak : root1Of .arctic 0.8719 = 0 := by
  unfold root1Of
  rw [discriminant_arctic_peak, Real.sqrt_sq (by norm_num)]
  norm_num [SPECIES_FORMULAS]

lemma calculateTBH_arctic_peak : calculateTBH 0.8719 .arctic = .ok 0 := by
  have hd : densityOfDBH .arctic 0 = 0.8719 := by
    unfold densityOfDBH
    norm_num [SPECIES_FORMULAS]
  have h := roundtrip_core .arctic 0 le_rfl (by norm_num)
    (by norm_num [SPECIES_FORMULAS]) (by norm_num [SPECIES_FORMULAS])
    (by norm_num [SPECIES_FORMULAS]) (by norm_num [SPECIES_FORMULAS])
  rw [hd] at h
  exact h

/-- Witness for C4 at species arctic, density 0.8719 (the arctic constant
term), where the surviving root set is exactly the root 0. -/
theorem calculateTBH_smaller_root_witness :
    ∃ m, calculateTBH 0.8719 .arctic = .ok m ∧
      m ∈ validRoots (root1Of .arctic 0.8719) (root2Of .arctic 0.8719) ∧
      ∀ r ∈ validRoots (root1Of .arctic 0.8719) (root2Of .arctic 0.8719), m ≤ r := by
  have hne : validRoots (root1Of .arctic 0.8719) (root2Of .arctic 0.8719) ≠ [] := by
    intro h
    have hmem : (0 : ℝ) ∈ validRoots (root1Of .arctic 0.8719) (root2Of .arctic 0.8719) :=
      (mem_validRoots 0 _ _).mpr ⟨Or.inl root1_arctic_peak.symm, le_rfl, by norm_num⟩
    rw [h] at hmem
    cases hmem
  exact (calculateTBH_smaller_root .arctic 0.8719 (by norm_num) (by norm_num)
    (by rw [discriminant_arctic_peak]; positivity) hne).2

/-- C9 (implicit): every successful result of the final-generation solver lies
in [0, 35], and the ImplausibleResult kind (the defensive final sanity bounds)
can never be raised. -/
theorem calculateTBH_ok_in_window (s : Species) (d : ℝ) :
    (∀ v, calculateTBH d s = .ok v → 0 ≤ v ∧ v ≤ 35) ∧
    calculateTBH d s ≠ .error .implausibleResult := by
  unfold calculateTBH
  split_ifs with h1 h2 h3
  · exact ⟨fun v hv => (by cases hv), fun h => (by simp at h)⟩
  · exact ⟨fun v hv => (by cases hv), fun h => (by simp at h)⟩
  · exact ⟨fun v hv => (by cases hv), fun h => (by simp at h)⟩
  rcases hl : validRoots (root1Of s d) (root2Of s d) with _ | ⟨r, rs⟩
  · exact ⟨fun v hv => (by cases hv), fun h => (by simp at h)⟩
  obtain ⟨hm0, hm35⟩ := validRoots_cons_bounds _ _ r rs hl
  simp only []
  rw [if_neg (not_lt.mpr hm0), if_neg (not_lt.mpr (le_trans hm35 (by norm_num)))]
  refine ⟨fun v hv => ?_, fun h => (by simp at h)⟩
  cases hv
  exact ⟨hm0, hm35⟩

/-- Witness for C9 at species arctic, density 0.8719: the returned root 0 is
inside the window. -/
theorem calculateTBH_ok_in_window_witness : 0 ≤ (0 : ℝ) ∧ (0 : ℝ) ≤ 35 :=
  (calculateTBH_ok_in_window .arctic 0.8719).1 0 calculateTBH_arctic_peak

/-- C6: the confidence score always lies in the closed interval [0.1, 1.0]. -/
theorem calculateConfidence_bounds (d t : ℝ) (s : Species) :
    0.1 ≤ calculateConfidence d t s ∧ calculateConfidence d t s ≤ 1 := by
  unfold calculateConfidence
  exact ⟨le_max_left _ _,
    max_le (by norm_num) (le_trans (min_le_left _ _) (by norm_num))⟩

/-- C5: the confidence scorer computes exactly the arithmetic the spec
describes — factor 0.6 or the midpoint-closeness scaling for density, then
factor 0.7 or 0.8 for dbh, clamped to [0.1, 1.0]. -/
theorem calculateConfidence_eq_spec (d t : ℝ) (s : Species) :
    calculateConfidence d t s = confidenceSpec d t s := by
  simp only [calculateConfidence, confidenceSpec]
  rw [show (SPECIES_RANGES s).density.lo +
        ((SPECIES_RANGES s).density.hi - (SPECIES_RANGES s).density.lo) / 2 =
        ((SPECIES_RANGES s).density.lo + (SPECIES_RANGES s).density.hi) / 2 from by ring]
  split_ifs <;> ring_nf

/-! ### Validator lemmas and the validator/solver agreement claims -/

lemma structural_pos (input : SkuaCalculationInput) (hs : structuralErrors input = []) :
    0 < input.length ∧ 0 < input.breadth ∧ 0 < input.mass ∧ 0 < input.kv := by
  unfold structuralErrors at hs
  refine ⟨not_le.mp fun h => ?_, not_le.mp fun h => ?_, not_le.mp fun h => ?_,
    not_le.mp fun h => ?_⟩ <;> rw [if_pos h] at hs <;> simp at hs

lemma valid_facts (input : SkuaCalculationInput) (h : validationErrors input = []) :
    structuralErrors input = [] ∧
    ¬ (simDensity input < 0.5 ∨ 1.5 < simDensity input) ∧
    ¬ discriminantOf input.speciesType (simDensity input) < 0 := by
  unfold validationErrors at h
  by_cases hs : structuralErrors input = []
  · rw [if_pos hs] at h
    refine ⟨hs, fun hc => ?_, fun hc => ?_⟩
    · rw [if_pos hc] at h
      simp at h
    · rw [if_pos hc] at h
      simp at h
  · rw [if_neg hs] at h
    exact absurd h hs

lemma calculateSkuaTBH_error_iff (input : SkuaCalculationInput)
    (hl : 0 < input.length) (hb : 0 < input.breadth) (hm : 0 < input.mass)
    (hk : 0 < input.kv) (e : ErrKind) :
    calculateSkuaTBH input = .error e ↔
      calculateTBH (simDensity input) input.speciesType = .error e := by
  have hvol : (0 : ℝ) < input.kv * input.length * input.breadth ^ 2 / 1000 := by positivity
  unfold calculateSkuaTBH calculateEggVolume calculateEggDensity
  rw [if_neg (by simp only [not_or, not_le]; exact ⟨hl, hb, hm, hk⟩),
    if_neg (by simp only [not_or, not_le]; exact ⟨hl, hb, hk⟩)]
  simp only []
  rw [if_neg (by simp only [not_or, not_le]; exact ⟨hm, hvol⟩)]
  simp only []
  rw [show input.mass / (input.kv * input.length * input.breadth ^ 2 / 1000) =
    simDensity input from rfl]
  rcases hres : calculateTBH (simDensity input) input.speciesType with e' | dbh
  · simp
  · simp

/-- The input length 80mm, breadth 50mm, mass 72g, kv 0.6, species arctic:
it passes every validator check (its simulated density is 0.6), yet both
quadratic roots fall outside [0, 35]. -/
noncomputable def disagreeInput : SkuaCalculationInput := ⟨80, 50, 72, 0.6, .arctic⟩

lemma disagree_sim : simDensity disagreeInput = 0.6 := by
  simp only [simDensity, disagreeInput]
  norm_num

lemma disagree_valid : validationErrors disagreeInput = [] := by
  have hs : structuralErrors disagreeInput = [] := by
    simp only [structuralErrors, disagreeInput]
    norm_num
  unfold validationErrors
  rw [if_pos hs, disagree_sim]
  simp only [disagreeInput]
  norm_num [discriminantOf, SPECIES_FORMULAS]

lemma calcTBH_point6 : calculateTBH 0.6 .arctic = .error .noValidRoot := by
  have hb : (SPECIES_FORMULAS .arctic).b = 0.008618 := rfl
  have ha2 : 2 * (SPECIES_FORMULAS .arctic).a < 0 := by norm_num [SPECIES_FORMULAS]
  have hdisc0 : (0 : ℝ) ≤ discriminantOf .arctic 0.6 := by
    unfold discriminantOf
    norm_num [SPECIES_FORMULAS]
  have hb2 : (0.008618 : ℝ) ^ 2 < discriminantOf .arctic 0.6 := by
    unfold discriminantOf
    norm_num [SPECIES_FORMULAS]
  have hs_gt : (0.008618 : ℝ) < Real.sqrt (discriminantOf .arctic 0.6) :=
    (Real.lt_sqrt (by norm_num)).mpr hb2
  have hroot1_neg : root1Of .arctic 0.6 < 0 := by
    unfold root1Of
    apply div_neg_of_pos_of_neg
    · rw [hb]
      linarith
    · exact ha2
  have hroot2_gt : 35 < root2Of .arctic 0.6 := by
    unfold root2Of
    rw [lt_div_iff_of_neg ha2]
    have hs_nonneg := Real.sqrt_nonneg (discriminantOf .arctic 0.6)
    rw [hb]
    norm_num [SPECIES_FORMULAS]
    linarith
  have hroots : validRoots (root1Of .arctic 0.6) (root2Of .arctic 0.6) = [] := by
    unfold validRoots
    rw [if_neg (fun hc => absurd hc.1 (not_le.mpr hroot1_neg)),
      if_neg (fun hc => absurd hc.2 (not_le.mpr hroot2_gt))]
    rfl
  unfold calculateTBH
  rw [if_neg (by norm_num : ¬ ((0.6 : ℝ) ≤ 0)), if_neg (by norm_num : ¬ ((2 : ℝ) < 0.6)),
    if_neg (not_lt.mpr hdisc0), hroots]

/-- C2 counterexample: the input 80mm/50mm/72g/kv 0.6/arctic passes
validateCalculationInput (isValid = true) but calculateSkuaTBH fails on it
with the NoValidRoot error. -/
theorem validator_solver_disagreement :
    (validateCalculationInput disagreeInput).isValid ∧
    calculateSkuaTBH disagreeInput = .error .noValidRoot := by
  refine ⟨disagree_valid, ?_⟩
  have hpos := structural_pos disagreeInput (by
    simp only [structuralErrors, disagreeInput]
    norm_num)
  apply (calculateSkuaTBH_error_iff disagreeInput hpos.1 hpos.2.1 hpos.2.2.1
    hpos.2.2.2 .noValidRoot).mpr
  rw [disagree_sim]
  show calculateTBH 0.6 disagreeInput.speciesType = .error .noValidRoot
  exact calcTBH_point6

/-- C2 amended: a validated input can never make the solver fail with
UnsolvableFormula (the validator pre-checks the same discriminant); the
only failure still possible is NoValidRoot. -/
theorem validator_implies_no_unsolvable (input : SkuaCalculationInput)
    (h : (validateCalculationInput input).isValid) :
    calculateSkuaTBH input ≠ .error .unsolvableFormula ∧
    ∀ e, calculateSkuaTBH input = .error e → e = .noValidRoot := by
  have h' : validationErrors input = [] := h
  obtain ⟨hs, hdens, hdisc⟩ := valid_facts input h'
  obtain ⟨hl, hb, hm, hk⟩ := structural_pos input hs
  push_neg at hdens
  have hd0 : 0 < simDensity input := lt_of_lt_of_le (by norm_num) hdens.1
  have hd2 : simDensity input ≤ 2 := le_trans hdens.2 (by norm_num)
  have hdisc' : 0 ≤ discriminantOf input.speciesType (simDensity input) := not_lt.mp hdisc
  have key : ∀ e, calculateSkuaTBH input = .error e → e = .noValidRoot := by
    intro e he
    have hsolver := (calculateSkuaTBH_error_iff input hl hb hm hk e).mp he
    rcases calculateTBH_outcomes input.speciesType (simDensity input) hd0 hd2 hdisc' with
      ⟨v, hv, -, -⟩ | hnv
    · rw [hv] at hsolver
      cases hsolver
    · rw [hnv] at hsolver
      injection hsolver with h2
      exact h2.symm
  refine ⟨fun hc => ?_, key⟩
  have := key _ hc
  cases this

/-- Witness for the amended C2 at the validated input 80/50/72/0.6/arctic. -/
theorem validator_implies_no_unsolvable_witness :
    calculateSkuaTBH disagreeInput ≠ .error .unsolvableFormula ∧
    ∀ e, calculateSkuaTBH disagreeInput = .error e → e = .noValidRoot :=
  validator_implies_no_unsolvable disagreeInput disagree_valid

/-- C10 (implicit): when every structural and range check passes but the
pre-simulated density falls outside the 0.5-1.5 band, the validator reports
isValid = false with a density-range diagnostic, although the solver itself
accepts any positive density up to 2.0 whose discriminant is nonnegative
(it raises none of the density or discriminant error kinds there). -/
theorem validator_density_band (input : SkuaCalculationInput)
    (hs : structuralErrors input = [])
    (hd : simDensity input < 0.5 ∨ 1.5 < simDensity input) :
    ((validateCalculationInput input).isValid → False) ∧
    ValidationError.densityOutOfRange ∈ (validateCalculationInput input).errors ∧
    ∀ (d : ℝ) (s : Species), 0 < d → d ≤ 2 → 0 ≤ discriminantOf s d →
      calculateTBH d s ≠ .error .invalidMeasurement ∧
      calculateTBH d s ≠ .error .implausibleMeasurement ∧
      calculateTBH d s ≠ .error .unsolvableFormula := by
  have herr : ValidationError.densityOutOfRange ∈ validationErrors input := by
    unfold validationErrors
    rw [if_pos hs, if_pos hd]
    exact List.mem_append.mpr (Or.inl (List.mem_singleton.mpr rfl))
  refine ⟨fun hv => ?_, herr, ?_⟩
  · have h' : validationErrors input = [] := hv
    rw [h'] at herr
    cases herr
  · intro d s hd0 hd2 hdisc
    rcases calculateTBH_outcomes s d hd0 hd2 hdisc with ⟨v, hv, -, -⟩ | hnv
    · rw [hv]
      refine ⟨?_, ?_, ?_⟩ <;> simp
    · rw [hnv]
      refine ⟨?_, ?_, ?_⟩ <;> simp

/-- The input 85mm/60mm/70g/kv 1.0/arctic: structurally valid but its
simulated density 70/306 is below 0.5. -/
noncomputable def lowDensityInput : SkuaCalculationInput := ⟨85, 60, 70, 1, .arctic⟩

/-- Witness for C10 at the structurally valid input 85/60/70/1.0/arctic. -/
theorem validator_density_band_witness :
    ValidationError.densityOutOfRange ∈ (validateCalculationInput lowDensityInput).errors :=
  (validator_density_band lowDensityInput
    (by simp only [structuralErrors, lowDensityInput]; norm_num)
    (Or.inl (by simp only [simDensity, lowDensityInput]; norm_num))).2.1

/-! ### The arctic sample scenario and the batch variant -/

lemma calculateSkuaTBH_ok (input : SkuaCalculationInput)
    (hl : 0 < input.length) (hb : 0 < input.breadth) (hm : 0 < input.mass)
    (hk : 0 < input.kv) (dbh : ℝ)
    (hsolve : calculateTBH (simDensity input) input.speciesType = .ok dbh) :
    calculateSkuaTBH input = .ok
      { tbh := roundTo 100 dbh
        eggDensity := roundTo 10000 (simDensity input)
        eggVolume := roundTo 100 (input.kv * input.length * input.breadth ^ 2 / 1000)
        confidence := roundTo 1000 (calculateConfidence (simDensity input) dbh input.speciesType)
        speciesType := input.speciesType
        coeffA := (SPECIES_FORMULAS input.speciesType).a
        coeffB := (SPECIES_FORMULAS input.speciesType).b
        coeffC := (SPECIES_FORMULAS input.speciesType).c } := by
  have hvol : (0 : ℝ) < input.kv * input.length * input.breadth ^ 2 / 1000 := by positivity
  unfold calculateSkuaTBH calculateEggVolume calculateEggDensity
  rw [if_neg (by simp only [not_or, not_le]; exact ⟨hl, hb, hm, hk⟩),
    if_neg (by simp only [not_or, not_le]; exact ⟨hl, hb, hk⟩)]
  simp only []
  rw [if_neg (by simp only [not_or, not_le]; exact ⟨hm, hvol⟩)]
  simp only []
  rw [show input.mass / (input.kv * input.length * input.breadth ^ 2 / 1000) =
    simDensity input from rfl, hsolve]

/-- The spec's arctic-like sample: length 72.3mm, breadth 50.2mm, mass
91.89g, shape constant 0.507, species arctic. -/
noncomputable def arcticSample : SkuaCalculationInput := ⟨72.3, 50.2, 91.89, 0.507, .arctic⟩

lemma arctic_disc_lo :
    (0.006178 : ℝ) ^ 2 < discriminantOf .arctic (simDensity arcticSample) := by
  simp only [discriminantOf, SPECIES_FORMULAS, simDensity, arcticSample]
  norm_num

lemma arctic_disc_hi :
    discriminantOf .arctic (simDensity arcticSample) < (0.006179 : ℝ) ^ 2 := by
  simp only [discriminantOf, SPECIES_FORMULAS, simDensity, arcticSample]
  norm_num

lemma arctic_sqrt_lo :
    (0.006178 : ℝ) < Real.sqrt (discriminantOf .arctic (simDensity arcticSample)) :=
  (Real.lt_sqrt (by norm_num)).mpr arctic_disc_lo

lemma arctic_sqrt_hi :
    Real.sqrt (discriminantOf .arctic (simDensity arcticSample)) < 0.006179 :=
  (Real.sqrt_lt' (by norm_num)).mpr arctic_disc_hi

lemma arctic_a_neg : 2 * (SPECIES_FORMULAS .arctic).a < 0 := by
  norm_num [SPECIES_FORMULAS]

lemma arctic_root1_lo : 16 < root1Of .arctic (simDensity arcticSample) := by
  unfold root1Of
  rw [lt_div_iff_of_neg arctic_a_neg]
  have h := arctic_sqrt_hi
  norm_num [SPECIES_FORMULAS]
  linarith

lemma arctic_root1_hi : root1Of .arctic (simDensity arcticSample) < 17 := by
  unfold root1Of
  rw [div_lt_iff_of_neg arctic_a_neg]
  have h := arctic_sqrt_lo
  norm_num [SPECIES_FORMULAS]
  linarith

lemma arctic_root2_gt : 35 < root2Of .arctic (simDensity arcticSample) := by
  unfold root2Of
  rw [lt_div_iff_of_neg arctic_a_neg]
  have h := Real.sqrt_nonneg (discriminantOf .arctic (simDensity arcticSample))
  norm_num [SPECIES_FORMULAS]
  linarith

lemma arctic_solve :
    calculateTBH (simDensity arcticSample) .arctic =
      .ok (root1Of .arctic (simDensity arcticSample)) := by
  have hd0 : 0 < simDensity arcticSample := by
    simp only [simDensity, arcticSample]
    norm_num
  have hd2 : simDensity arcticSample ≤ 2 := by
    simp only [simDensity, arcticSample]
    norm_num
  have hdisc0 : 0 ≤ discriminantOf .arctic (simDensity arcticSample) :=
    le_of_lt (lt_of_le_of_lt (by positivity) arctic_disc_lo)
  exact calculateTBH_ok_root1 .arctic (simDensity arcticSample) hd0 hd2 hdisc0
    ⟨by linarith [arctic_root1_lo], by linarith [arctic_root1_hi]⟩
    (by rintro ⟨-, h35⟩; exact absurd h35 (not_le.mpr arctic_root2_gt))

lemma arctic_conf_lo :
    0.63 ≤ calculateConfidence (simDensity arcticSample)
      (root1Of .arctic (simDensity arcticSample)) .arctic := by
  have habs : |simDensity arcticSample - (0.8 + (1.05 - 0.8) / 2)| ≤ (1.05 - 0.8) / 2 := by
    rw [abs_of_nonneg]
    · simp only [simDensity, arcticSample]
      norm_num
    · simp only [simDensity, arcticSample]
      norm_num
  have hratio : |simDensity arcticSample - (0.8 + (1.05 - 0.8) / 2)| / ((1.05 - 0.8) / 2) ≤ 1 := by
    rw [div_le_one (by norm_num)]
    exact habs
  have hratio0 : 0 ≤ |simDensity arcticSample - (0.8 + (1.05 - 0.8) / 2)| / ((1.05 - 0.8) / 2) :=
    div_nonneg (abs_nonneg _) (by norm_num)
  unfold calculateConfidence
  simp only [SPECIES_RANGES]
  rw [if_neg (by
    simp only [not_or, not_lt]
    constructor <;> (simp only [simDensity, arcticSample]; norm_num))]
  split_ifs <;>
    exact le_trans (le_min (by norm_num) (by nlinarith)) (le_max_right _ _)

lemma arcticSample_ok :
    calculateSkuaTBH arcticSample = .ok
      { tbh := roundTo 100 (root1Of .arctic (simDensity arcticSample))
        eggDensity := roundTo 10000 (simDensity arcticSample)
        eggVolume := roundTo 100
          (arcticSample.kv * arcticSample.length * arcticSample.breadth ^ 2 / 1000)
        confidence := roundTo 1000 (calculateConfidence (simDensity arcticSample)
          (root1Of .arctic (simDensity arcticSample)) .arctic)
        speciesType := .arctic
        coeffA := (SPECIES_FORMULAS .arctic).a
        coeffB := (SPECIES_FORMULAS .arctic).b
        coeffC := (SPECIES_FORMULAS .arctic).c } :=
  calculateSkuaTBH_ok arcticSample (by norm_num [arcticSample]) (by norm_num [arcticSample])
    (by norm_num [arcticSample]) (by norm_num [arcticSample])
    (root1Of .arctic (simDensity arcticSample)) arctic_solve

/-- C7: on the arctic-like sample (72.3mm, 50.2mm, 91.89g, kv 0.507) the
facade succeeds, reports egg volume 92.37 cm3 and egg density 0.9948 g/cm3
(approximately, i.e. exactly after the source's rounding), a dbh inside
[0, 35], and a confidence above 0.5. -/
theorem arctic_sample_scenario :
    ∃ r, calculateSkuaTBH arcticSample = .ok r ∧ r.eggVolume = 92.37 ∧
      r.eggDensity = 0.9948 ∧ 0 ≤ r.tbh ∧ r.tbh ≤ 35 ∧ 0.5 < r.confidence := by
  refine ⟨_, arcticSample_ok, ?_, ?_, ?_, ?_, ?_⟩
  · show roundTo 100 (arcticSample.kv * arcticSample.length * arcticSample.breadth ^ 2 / 1000)
      = 92.37
    unfold roundTo
    simp only [arcticSample]
    norm_num
  · show roundTo 10000 (simDensity arcticSample) = 0.9948
    unfold roundTo
    simp only [simDensity, arcticSample]
    norm_num
  · show 0 ≤ roundTo 100 (root1Of .arctic (simDensity arcticSample))
    unfold roundTo
    have h : (0 : ℤ) ≤ ⌊root1Of .arctic (simDensity arcticSample) * 100 + 1 / 2⌋ :=
      Int.le_floor.mpr (by push_cast; nlinarith [arctic_root1_lo])
    exact div_nonneg (by exact_mod_cast h) (by norm_num)
  · show roundTo 100 (root1Of .arctic (simDensity arcticSample)) ≤ 35
    unfold roundTo
    rw [div_le_iff₀ (by norm_num : (0 : ℝ) < 100)]
    have h := Int.floor_le (root1Of .arctic (simDensity arcticSample) * 100 + 1 / 2)
    nlinarith [arctic_root1_hi]
  · show 0.5 < roundTo 1000 (calculateConfidence (simDensity arcticSample)
      (root1Of .arctic (simDensity arcticSample)) .arctic)
    unfold roundTo
    rw [lt_div_iff₀ (by norm_num : (0 : ℝ) < 1000)]
    have h := Int.sub_one_lt_floor (calculateConfidence (simDensity arcticSample)
      (root1Of .arctic (simDensity arcticSample)) .arctic * 1000 + 1 / 2)
    nlinarith [arctic_conf_lo]

/-- An invalid measurement (negative length): the facade rejects it
immediately with InvalidMeasurement. -/
noncomputable def invalidSample : SkuaCalculationInput := ⟨-1, 50, 90, 0.5, .arctic⟩

lemma invalidSample_err : calculateSkuaTBH invalidSample = .error .invalidMeasurement := by
  unfold calculateSkuaTBH
  rw [if_pos (Or.inl (by norm_num [invalidSample]))]

lemma batchAux_split (x : SkuaCalculationInput) (e : ErrKind)
    (hx : calculateSkuaTBH x = .error e) (post : List SkuaCalculationInput) :
    ∀ pre : List SkuaCalculationInput,
      (∀ y ∈ pre, ∃ r, calculateSkuaTBH y = .ok r) → ∀ i,
      calculateBatchTBHAux i (pre ++ x :: post) = .error (i + pre.length, e) := by
  intro pre
  induction pre with
  | nil =>
    intro _ i
    simp [calculateBatchTBHAux, hx]
  | cons y ys ih =>
    intro hpre i
    obtain ⟨r, hr⟩ := hpre y (List.mem_cons_self y ys)
    have ih' := ih (fun z hz => hpre z (List.mem_cons_of_mem y hz)) (i + 1)
    simp only [List.cons_append, calculateBatchTBHAux, hr, List.length_cons, List.append_eq]
    have harith : i + 1 + ys.length = i + (ys.length + 1) := by omega
    rw [ih', harith]

/-- C8: the batch variant applies the facade to each element in order and
fails at the first failing element, its error carrying that element's
(zero-based) index — later elements are never reached (the tail list is
arbitrary). -/
theorem batch_first_failure (pre post : List SkuaCalculationInput)
    (x : SkuaCalculationInput) (e : ErrKind)
    (hx : calculateSkuaTBH x = .error e)
    (hpre : ∀ y ∈ pre, ∃ r, calculateSkuaTBH y = .ok r) :
    calculateBatchTBH (pre ++ x :: post) = .error (pre.length, e) := by
  have h := batchAux_split x e hx post pre hpre 0
  simpa [calculateBatchTBH] using h

/-- Witness for C8: the batch [good, bad, good] fails and its error names
index 1 (the source's diagnostic string prints this index plus one). -/
theorem batch_first_failure_witness :
    calculateBatchTBH [arcticSample, invalidSample, arcticSample] =
      .error (1, .invalidMeasurement) := by
  have h := batch_first_failure [arcticSample] [arcticSample] invalidSample
    .invalidMeasurement invalidSample_err
    (fun y hy => by
      rcases List.mem_singleton.mp hy with rfl
      exact ⟨_, arcticSample_ok⟩)
  simpa using h

end Ovotime
